import Mathlib

/-!
Shallow embedding of the pod-watcher controller (Rust sources under `src/`).

The embedding follows `src/src/main.rs` (termination evaluator
`are_critical_pods_dead`, owner-chain resolver and cascading deleter
`delete_pod`, watch loop `wait_for_critical_pod_to_exit`) and
`src/src/cleanup/mod.rs` (`CleanupPod::cleanup_pod`).  Kubernetes API calls
and the sidecar HTTP call are modelled as explicit capabilities
(functions returning `Except`); time delays and logging are dropped, as they
carry no data the control flow depends on.
-/

namespace PodWatcher

/-- Mirror of `k8s_openapi ContainerStateTerminated`; only the finish
timestamp is retained (modelled as epoch milliseconds). The Rust evaluator
never reads it, but spec-side predicates about deadlines do. -/
structure ContainerStateTerminated where
  finishedAt : Option Int
deriving Repr, DecidableEq

/-- Mirror of `k8s_openapi ContainerState`; only the `terminated` branch is
ever inspected by the code. -/
structure ContainerState where
  terminated : Option ContainerStateTerminated
deriving Repr, DecidableEq

/-- Mirror of `k8s_openapi ContainerStatus`: a container name and an optional
state. -/
structure ContainerStatus where
  name : String
  state : Option ContainerState
deriving Repr, DecidableEq

/-- Mirror of `k8s_openapi PodStatus`: optional list of container statuses and
the pod IP (read only by the Istio cleanup path). -/
structure PodStatus where
  containerStatuses : Option (List ContainerStatus)
  podIP : Option String
deriving Repr, DecidableEq

/-- Mirror of `k8s_openapi Pod` restricted to the field the evaluator and the
cleanup path read: the optional status. -/
structure Pod where
  status : Option PodStatus
deriving Repr, DecidableEq

/-- `KillCondition` from `src/src/main.rs` (clap arg enum). -/
inductive KillCondition where
  | Any
  | All
deriving Repr, DecidableEq

/-- Does this container status carry a terminated state?  Mirrors the nested
`match &status.state { Some(state) => if let Some(terminated) = ... }` of
`are_critical_pods_dead` in `src/src/main.rs` (lines 326-343). -/
def hasTerminated (s : ContainerStatus) : Bool :=
  match s.state with
  | some state => state.terminated.isSome
  | none => false

/-- The counting loop of `are_critical_pods_dead` (`src/src/main.rs` lines
321-346): walk the observed container statuses in order; when a status name is
in the remaining critical set, count it if terminated, then remove the name
from the set (so only the first occurrence of a name is considered). -/
def countDead : List ContainerStatus → List String → Nat
  | [], _ => 0
  | s :: rest, crit =>
    if s.name ∈ crit then
      (if hasTerminated s then 1 else 0) + countDead rest (crit.erase s.name)
    else
      countDead rest crit

/-- `are_critical_pods_dead` from `src/src/main.rs` (lines 290-363).
`critical_containers.dedup` models the `BTreeSet` built from
`args.critical_containers`; note the `All` arm compares against the length of
the original declared list, exactly as the Rust compares against
`args.critical_containers.len()`. -/
def are_critical_pods_dead (pod : Pod) (critical_containers : List String)
    (kill_condition : KillCondition) : Bool :=
  match pod.status with
  | none => false
  | some status =>
    match status.containerStatuses with
    | none => false
    | some container_statuses =>
      let dead := countDead container_statuses critical_containers.dedup
      match kill_condition with
      | .Any => dead != 0
      | .All => dead == critical_containers.length

/-- Spec-side predicate (following the spec's words for claim C1): every
declared critical container that is actually present among the observed
container statuses is terminated; a declared-but-absent container is ignored. -/
def specAllEligible (statuses : List ContainerStatus) (crit : List String) : Bool :=
  crit.all fun c =>
    match statuses.find? (fun s => s.name == c) with
    | none => true
    | some s => hasTerminated s

/-- Spec-side predicate (following the spec's words for claim C2): some
declared critical container is observed terminated and its finish time plus
the configured critical-deadline has already elapsed at time `now`.  A
terminated state with no finish timestamp is treated as not yet past its
deadline. -/
def specAnyPastDeadline (now deadlineMs : Int) (statuses : List ContainerStatus)
    (crit : List String) : Bool :=
  statuses.any fun s =>
    s.name ∈ crit &&
      (match s.state with
       | some state =>
         match state.terminated with
         | some term =>
           match term.finishedAt with
           | some t => decide (t + deadlineMs ≤ now)
           | none => false
         | none => false
       | none => false)

/-- Observed-terminated predicate used to characterise `countDead`: some
observed status has this name and a terminated state. -/
def observedTerminated (statuses : List ContainerStatus) (c : String) : Bool :=
  statuses.any fun s => s.name == c && hasTerminated s

/-- Mirror of `k8s_openapi OwnerReference` restricted to the fields the code
reads: kind, api version, name and the controller flag. -/
structure OwnerReference where
  kind : String
  apiVersion : String
  name : String
  controller : Option Bool
deriving Repr, DecidableEq

/-- Mirror of `k8s_openapi ObjectMeta` restricted to what the resolver reads:
a name (kept to distinguish resources in examples) and the optional owner
references. -/
structure ObjectMeta where
  name : Option String
  ownerReferences : Option (List OwnerReference)
deriving Repr, DecidableEq

/-- `get_owners` from `src/src/main.rs` (lines 246-259): keep, in order, the
owner references whose controller flag is set (`unwrap_or_default` = `getD
false`). -/
def get_owners (metadata : ObjectMeta) : List OwnerReference :=
  match metadata.ownerReferences with
  | none => []
  | some refs => refs.filter fun r => r.controller.getD false

/-- `KnownResource` from `src/src/main.rs` (lines 149-154); resources are
represented by their metadata, which is all the deleter reads. -/
inductive KnownResource where
  | Pod : ObjectMeta → KnownResource
  | Job : ObjectMeta → KnownResource
  | ReplicaSet : ObjectMeta → KnownResource
  | Deployment : ObjectMeta → KnownResource
deriving Repr, DecidableEq

/-- Errors of the delete path: a failed ancestor fetch (kind, name), a failed
delete call, or exhaustion of the model's fuel (the Rust `while` loop has no
such bound and simply would not terminate on a cyclic reference graph). -/
inductive KubeError where
  | fetchFailed : String → String → KubeError
  | deleteFailed : KnownResource → KubeError
  | outOfFuel : KubeError
deriving Repr, DecidableEq

/-- The cluster API as a capability: per-kind `get` by name, and `delete` of a
resolved resource, each of which may fail. -/
structure Cluster where
  getReplicaSet : String → Except Unit ObjectMeta
  getJob : String → Except Unit ObjectMeta
  getDeployment : String → Except Unit ObjectMeta
  deleteResource : KnownResource → Except Unit Unit

/-- The `while !owner_refs.is_empty()` loop of `delete_pod` in
`src/src/main.rs` (lines 165-204).  The pending list here is the Rust `Vec`
reversed: `Vec::pop` takes the back of the vector, i.e. the head here, and the
`owner_refs.insert(0, super_owner)` calls put the fetched target's controller
owners at the front of the vector, i.e. appended at the end here in their
`get_owners` order.  Recognized kinds fetch the target, append it to the chain
and enqueue its controller owners; a fetch failure aborts the whole walk with
an error; an unrecognized kind is the Rust `break`: the walk returns the chain
accumulated so far. -/
def resolveChain (c : Cluster) : Nat → List OwnerReference → List KnownResource →
    Except KubeError (List KnownResource)
  | _, [], acc => .ok acc
  | 0, _ :: _, _ => .error .outOfFuel
  | fuel + 1, owner :: rest, acc =>
    if owner.kind = "ReplicaSet" then
      match c.getReplicaSet owner.name with
      | .error _ => .error (.fetchFailed "ReplicaSet" owner.name)
      | .ok target =>
        resolveChain c fuel (rest ++ get_owners target) (acc ++ [.ReplicaSet target])
    else if owner.kind = "Job" then
      match c.getJob owner.name with
      | .error _ => .error (.fetchFailed "Job" owner.name)
      | .ok target =>
        resolveChain c fuel (rest ++ get_owners target) (acc ++ [.Job target])
    else if owner.kind = "Deployment" then
      match c.getDeployment owner.name with
      | .error _ => .error (.fetchFailed "Deployment" owner.name)
      | .ok target =>
        resolveChain c fuel (rest ++ get_owners target) (acc ++ [.Deployment target])
    else
      .ok acc

/-- The deletion loop of `delete_pod` (`src/src/main.rs` lines 208-223):
issue one delete per chain member in order; a failed delete aborts the rest.
Returns the list of delete calls actually issued and the result. -/
def runDeletes (c : Cluster) : List KnownResource →
    List KnownResource × Except KubeError Unit
  | [] => ([], .ok ())
  | r :: rest =>
    match c.deleteResource r with
    | .error _ => ([r], .error (.deleteFailed r))
    | .ok _ =>
      let p := runDeletes c rest
      (r :: p.1, p.2)

/-- `delete_pod` from `src/src/main.rs` (lines 156-225): seed the chain with
the pod, seed the pending owners with the pod's controller owner references
(reversed here because the Rust pops from the back of its `Vec`), run the
walk, reverse the chain, then issue the deletions.  On a resolution error the
function returns early: zero delete calls are issued.  The first component is
the sequence of delete calls issued. -/
def delete_pod (c : Cluster) (fuel : Nat) (podMeta : ObjectMeta) :
    List KnownResource × Except KubeError Unit :=
  match resolveChain c fuel ((get_owners podMeta).reverse) [KnownResource.Pod podMeta] with
  | .error e => ([], .error e)
  | .ok chain => runDeletes c chain.reverse

/-- `CleanupPod::get_istio_container_ip` from `src/src/cleanup/mod.rs` (lines
39-62): no status or no container statuses yields `none`; otherwise the pod IP
is returned exactly when some container status bears the configured Istio
container name. -/
def get_istio_container_ip (istioContainerName : String) (pod : Pod) : Option String :=
  match pod.status with
  | none => none
  | some status =>
    match status.containerStatuses with
    | none => none
    | some statuses =>
      if statuses.any fun s => s.name == istioContainerName then status.podIP
      else none

/-- Observable steps of `cleanup_pod`: the HTTP shutdown signal to the sidecar
at a given IP, and the call into `delete::delete_pod` (the chain deletion). -/
inductive CleanupEvent where
  | istioSignal : String → CleanupEvent
  | chainDelete : CleanupEvent
deriving Repr, DecidableEq

/-- Error side of `cleanup_pod`'s result, mirroring `crate::errors::Error`'s
two links: an HTTP (reqwest) error from the sidecar signal or a kubernetes
error from the deletion. -/
inductive CleanupError where
  | http
  | kube
deriving Repr, DecidableEq

/-- `CleanupPod::cleanup_pod` from `src/src/cleanup/mod.rs` (lines 24-37).
The sidecar HTTP call and the chain deletion are capabilities whose outcomes
are parameters.  Faithful to the Rust `?` operators: if an Istio IP is found
and `stop_istio` fails, the function returns that error at once — the
chain deletion is not reached.  The first component lists the calls issued. -/
def cleanup_pod (istioContainerName : String) (stopIstioResult : String → Except Unit Unit)
    (deletePodResult : Except Unit Unit) (pod : Pod) :
    List CleanupEvent × Except CleanupError Unit :=
  match get_istio_container_ip istioContainerName pod with
  | some ip =>
    match stopIstioResult ip with
    | .error _ => ([.istioSignal ip], .error .http)
    | .ok _ =>
      match deletePodResult with
      | .error _ => ([.istioSignal ip, .chainDelete], .error .kube)
      | .ok _ => ([.istioSignal ip, .chainDelete], .ok ())
  | none =>
    match deletePodResult with
    | .error _ => ([.chainDelete], .error .kube)
    | .ok _ => ([.chainDelete], .ok ())

/-- `wait_for_critical_pod_to_exit` from `src/src/main.rs` (lines 261-288),
with the stream of per-tick `get_pod_status` results supplied as a list.
A tick whose fetch fails sets `should_kill_pod := false` (the Rust logs
"Ignoring error.") and the loop continues.  `.ok true` models the `break`
(pod judged eligible); `.ok false` means every supplied tick elapsed with the
loop still running.  The Rust function's only way out of the loop is the
break followed by `Ok(())`: no fetch error is ever propagated. -/
def wait_for_critical_pod_to_exit (fetches : List (Except Unit Pod))
    (critical_containers : List String) (kill_condition : KillCondition) :
    Except Unit Bool :=
  match fetches with
  | [] => .ok false
  | f :: rest =>
    let should_kill_pod :=
      match f with
      | .ok pod => are_critical_pods_dead pod critical_containers kill_condition
      | .error _ => false
    if should_kill_pod then .ok true
    else wait_for_critical_pod_to_exit rest critical_containers kill_condition

/-! ## Helper lemmas -/

theorem countDead_nil_crit (st : List ContainerStatus) : countDead st [] = 0 := by
  induction st with
  | nil => rfl
  | cons s rest ih => simpa [countDead] using ih

theorem runDeletes_all_ok (c : Cluster) (hdel : ∀ r, c.deleteResource r = Except.ok ()) :
    ∀ l : List KnownResource, runDeletes c l = (l, Except.ok ()) := by
  intro l
  induction l with
  | nil => rfl
  | cons r rest ih => simp [runDeletes, hdel r, ih]

/-! ## Claims C7, C10 -/

/-- C7: for every policy and every declared critical-container set, a pod that
reports no status, or a status without container statuses, is never eligible:
`are_critical_pods_dead` returns `false` in both cases. -/
theorem c7_no_status_never_eligible (crit : List String) (cond : KillCondition)
    (ip : Option String) :
    are_critical_pods_dead ⟨none⟩ crit cond = false ∧
    are_critical_pods_dead ⟨some ⟨none, ip⟩⟩ crit cond = false :=
  ⟨rfl, rfl⟩

/-- C10: for a pod with a non-empty list of container statuses and an empty
declared critical-container list, the evaluator returns `true` under `All`
(dead-count 0 equals declared count 0) and `false` under `Any`. -/
theorem c10_empty_critical_set (st : List ContainerStatus) (ip : Option String)
    (h : st ≠ []) :
    are_critical_pods_dead ⟨some ⟨some st, ip⟩⟩ [] KillCondition.All = true ∧
    are_critical_pods_dead ⟨some ⟨some st, ip⟩⟩ [] KillCondition.Any = false := by
  constructor <;> simp [are_critical_pods_dead, countDead_nil_crit]

/-- Witness for C10 at a concrete one-container pod. -/
theorem c10_witness :
    ([(⟨"web", none⟩ : ContainerStatus)] ≠ []) ∧
    are_critical_pods_dead ⟨some ⟨some [⟨"web", none⟩], none⟩⟩ [] KillCondition.All = true ∧
    are_critical_pods_dead ⟨some ⟨some [⟨"web", none⟩], none⟩⟩ [] KillCondition.Any = false :=
  ⟨by decide, c10_empty_critical_set [⟨"web", none⟩] none (by decide)⟩

/-! ## Claim C9 -/

/-- C9 counterexample: a tick whose pod fetch fails is survived by the watch
loop as a non-eligible tick — the loop runs out of supplied ticks still
waiting (`.ok false`), and no error is propagated, contrary to the claim that
such a failure is fatal and terminates the process. -/
theorem c9_counterexample :
    wait_for_critical_pod_to_exit [Except.error ()] ["app"] KillCondition.Any =
      Except.ok false ∧
    wait_for_critical_pod_to_exit [Except.error ()] ["app"] KillCondition.Any ≠
      Except.error () := by
  constructor
  · rfl
  · intro h
    cases h

/-- C9 amended: a failure to fetch the watched pod during a poll tick is not
fatal — it is treated as a non-eligible tick and the loop continues; in
particular, over any stream of ticks that all fail to fetch, the loop is still
running at the end and never propagates an error. -/
theorem c9_fetch_error_not_fatal (fetches : List (Except Unit Pod))
    (crit : List String) (cond : KillCondition)
    (h : ∀ f ∈ fetches, f = Except.error ()) :
    wait_for_critical_pod_to_exit fetches crit cond = Except.ok false := by
  induction fetches with
  | nil => rfl
  | cons f rest ih =>
    have hf : f = Except.error () := h f (by simp)
    subst hf
    exact ih fun g hg => h g (by simp [hg])

/-- Witness for C9 at a concrete two-tick all-failing stream. -/
theorem c9_witness :
    (∀ f ∈ [Except.error (), Except.error ()], f = (Except.error () : Except Unit Pod)) ∧
    wait_for_critical_pod_to_exit [Except.error (), Except.error ()] ["app"]
      KillCondition.All = Except.ok false :=
  ⟨by simp, c9_fetch_error_not_fatal [Except.error (), Except.error ()] ["app"]
    KillCondition.All (by simp)⟩

/-! ## Claim C3 -/

/-- C3 counterexample: for a pod carrying the Istio sidecar with a pod IP,
when `stop_istio` fails, `cleanup_pod` returns the HTTP error having issued
only the sidecar signal — the chain deletion is never issued, contrary to the
claim that the deletion still proceeds. -/
theorem c3_counterexample :
    cleanup_pod "istio-proxy" (fun _ => Except.error ()) (Except.ok ())
        ⟨some ⟨some [⟨"istio-proxy", none⟩], some "10.0.0.1"⟩⟩ =
      ([CleanupEvent.istioSignal "10.0.0.1"], Except.error CleanupError.http) ∧
    CleanupEvent.chainDelete ∉
      (cleanup_pod "istio-proxy" (fun _ => Except.error ()) (Except.ok ())
        ⟨some ⟨some [⟨"istio-proxy", none⟩], some "10.0.0.1"⟩⟩).1 := by
  constructor
  · rfl
  · decide

/-- C3 amended: a `stop_istio` failure does block the cascading deletion —
`cleanup_pod` returns the HTTP error at once, with only the sidecar signal
issued; the chain deletion is issued exactly when either no sidecar IP is
found (no signal attempted) or the sidecar signal succeeds. -/
theorem c3_istio_error_blocks_delete (istioName : String)
    (stopRes : String → Except Unit Unit) (delRes : Except Unit Unit) (pod : Pod) :
    (∀ ip, get_istio_container_ip istioName pod = some ip →
      stopRes ip = Except.error () →
      cleanup_pod istioName stopRes delRes pod =
        ([CleanupEvent.istioSignal ip], Except.error CleanupError.http)) ∧
    (CleanupEvent.chainDelete ∈ (cleanup_pod istioName stopRes delRes pod).1 ↔
      ∀ ip, get_istio_container_ip istioName pod = some ip →
        stopRes ip = Except.ok ()) := by
  constructor
  · intro ip hip hstop
    simp [cleanup_pod, hip, hstop]
  · cases hip : get_istio_container_ip istioName pod with
    | none =>
      cases delRes <;> simp [cleanup_pod, hip]
    | some ip =>
      cases hstop : stopRes ip with
      | error e =>
        simp only [cleanup_pod, hip, hstop]
        constructor
        · intro hmem
          simp at hmem
        · intro hall
          have := hall ip rfl
          rw [hstop] at this
          cases this
      | ok u =>
        cases delRes <;>
          · simp only [cleanup_pod, hip, hstop]
            constructor
            · intro _ ip2 hip2
              obtain rfl : ip = ip2 := by injection hip2
              cases u
              exact hstop
            · intro _
              simp

/-- Witness for C3 at a concrete sidecar-bearing pod with a failing signal. -/
theorem c3_witness :
    cleanup_pod "istio" (fun _ => Except.error ()) (Except.ok ())
        ⟨some ⟨some [⟨"istio", none⟩], some "1.2.3.4"⟩⟩ =
      ([CleanupEvent.istioSignal "1.2.3.4"], Except.error CleanupError.http) :=
  (c3_istio_error_blocks_delete "istio" (fun _ => Except.error ()) (Except.ok ())
    ⟨some ⟨some [⟨"istio", none⟩], some "1.2.3.4"⟩⟩).1 "1.2.3.4" (by decide) rfl

/-! ## Claims C5, C6 -/

/-- C5: an owner reference with an unrecognized kind truncates resolution
without error — the walk returns the chain accumulated so far (the
unrecognized owner is never fetched: the result does not depend on the
cluster), and for a pod whose controller owner has an unrecognized kind,
`delete_pod` still deletes everything already appended (here the pod). -/
theorem c5_unknown_kind_truncates (c : Cluster) (fuel : Nat) (owner : OwnerReference)
    (rest : List OwnerReference) (acc : List KnownResource) (podM : ObjectMeta)
    (h1 : owner.kind ≠ "ReplicaSet") (h2 : owner.kind ≠ "Job")
    (h3 : owner.kind ≠ "Deployment")
    (hdel : ∀ r, c.deleteResource r = Except.ok ())
    (hpod : get_owners podM = [owner]) :
    resolveChain c (fuel + 1) (owner :: rest) acc = Except.ok acc ∧
    delete_pod c (fuel + 1) podM = ([KnownResource.Pod podM], Except.ok ()) := by
  have hstep : ∀ (rest2 : List OwnerReference) (acc2 : List KnownResource),
      resolveChain c (fuel + 1) (owner :: rest2) acc2 = Except.ok acc2 := by
    intro rest2 acc2
    simp only [resolveChain]
    rw [if_neg h1, if_neg h2, if_neg h3]
  refine ⟨hstep rest acc, ?_⟩
  unfold delete_pod
  rw [hpod]
  simp only [List.reverse_cons, List.reverse_nil, List.nil_append]
  rw [hstep [] [KnownResource.Pod podM]]
  simp [runDeletes_all_ok c hdel]

/-- Witness for C5: a StatefulSet controller owner (unrecognized) truncates
the walk and the pod alone is deleted. -/
theorem c5_witness :
    resolveChain
        { getReplicaSet := fun _ => Except.error ()
          getJob := fun _ => Except.error ()
          getDeployment := fun _ => Except.error ()
          deleteResource := fun _ => Except.ok () }
        3 [⟨"StatefulSet", "apps/v1", "ss", some true⟩] [] = Except.ok [] ∧
    delete_pod
        { getReplicaSet := fun _ => Except.error ()
          getJob := fun _ => Except.error ()
          getDeployment := fun _ => Except.error ()
          deleteResource := fun _ => Except.ok () }
        3 ⟨some "p", some [⟨"StatefulSet", "apps/v1", "ss", some true⟩]⟩ =
      ([KnownResource.Pod ⟨some "p", some [⟨"StatefulSet", "apps/v1", "ss", some true⟩]⟩],
        Except.ok ()) :=
  c5_unknown_kind_truncates _ 2 ⟨"StatefulSet", "apps/v1", "ss", some true⟩ [] []
    ⟨some "p", some [⟨"StatefulSet", "apps/v1", "ss", some true⟩]⟩
    (by decide) (by decide) (by decide) (fun _ => rfl) rfl

/-- C6: a failed fetch of a recognized ancestor aborts the whole resolution
with that fetch's error (shown for each of the three recognized kinds at the
head of the pending list), and on any resolution error `delete_pod` issues
zero delete calls and surfaces the same error. -/
theorem c6_fetch_failure_aborts (c : Cluster) (fuel : Nat) (podM : ObjectMeta)
    (owner : OwnerReference) (rest : List OwnerReference) (acc : List KnownResource) :
    (owner.kind = "ReplicaSet" → c.getReplicaSet owner.name = Except.error () →
      resolveChain c (fuel + 1) (owner :: rest) acc =
        Except.error (KubeError.fetchFailed "ReplicaSet" owner.name)) ∧
    (owner.kind = "Job" → c.getJob owner.name = Except.error () →
      resolveChain c (fuel + 1) (owner :: rest) acc =
        Except.error (KubeError.fetchFailed "Job" owner.name)) ∧
    (owner.kind = "Deployment" → c.getDeployment owner.name = Except.error () →
      resolveChain c (fuel + 1) (owner :: rest) acc =
        Except.error (KubeError.fetchFailed "Deployment" owner.name)) ∧
    (∀ e, resolveChain c fuel ((get_owners podM).reverse) [KnownResource.Pod podM] =
        Except.error e →
      delete_pod c fuel podM = ([], Except.error e)) := by
  refine ⟨?_, ?_, ?_, ?_⟩
  · intro hk herr
    simp only [resolveChain]
    rw [if_pos hk, herr]
  · intro hk herr
    simp only [resolveChain]
    rw [if_neg (by rw [hk]; decide), if_pos hk, herr]
  · intro hk herr
    simp only [resolveChain]
    rw [if_neg (by rw [hk]; decide), if_neg (by rw [hk]; decide), if_pos hk, herr]
  · intro e he
    unfold delete_pod
    rw [he]

/-- Witness for C6: a pod controller-owned by a Job whose fetch fails — the
resolve aborts with the fetch error and zero deletions are issued. -/
theorem c6_witness :
    delete_pod
        { getReplicaSet := fun _ => Except.error ()
          getJob := fun _ => Except.error ()
          getDeployment := fun _ => Except.error ()
          deleteResource := fun _ => Except.ok () }
        1 ⟨some "p", some [⟨"Job", "batch/v1", "j", some true⟩]⟩ =
      ([], Except.error (KubeError.fetchFailed "Job" "j")) :=
  (c6_fetch_failure_aborts _ 1 ⟨some "p", some [⟨"Job", "batch/v1", "j", some true⟩]⟩
    ⟨"Job", "batch/v1", "j", some true⟩ [] []).2.2.2
    (KubeError.fetchFailed "Job" "j") rfl

/-! ## Characterisation of the dead-count -/

theorem observedTerminated_cons (s : ContainerStatus) (rest : List ContainerStatus)
    (c : String) :
    observedTerminated (s :: rest) c =
      ((s.name == c) && hasTerminated s || observedTerminated rest c) := rfl

/-- The counting loop equals, on a duplicate-free critical set and
duplicate-free observed container names, the number of critical names observed
with a terminated status. -/
theorem countDead_eq (st : List ContainerStatus) :
    ∀ crit : List String, crit.Nodup → (st.map ContainerStatus.name).Nodup →
      countDead st crit = crit.countP (observedTerminated st) := by
  induction st with
  | nil =>
    intro crit _ _
    have hz : ∀ c ∈ crit, ¬observedTerminated [] c = true := by
      intro c _
      simp [observedTerminated]
    simp [countDead, List.countP_eq_zero.mpr hz]
  | cons s rest ih =>
    intro crit hnd hst
    have hstTail : (rest.map ContainerStatus.name).Nodup := by
      rw [List.map_cons] at hst
      exact hst.of_cons
    have hsn : ∀ t ∈ rest, t.name ≠ s.name := by
      rw [List.map_cons, List.nodup_cons] at hst
      intro t ht h
      exact hst.1 (h ▸ List.mem_map_of_mem ContainerStatus.name ht)
    by_cases hmem : s.name ∈ crit
    · have hrest_false : observedTerminated rest s.name = false := by
        simp only [observedTerminated, List.any_eq_false, Bool.and_eq_true, beq_iff_eq,
          not_and]
        intro t ht hteq
        exact absurd hteq (hsn t ht)
      have hP : observedTerminated (s :: rest) s.name = hasTerminated s := by
        rw [observedTerminated_cons, hrest_false]
        simp
      have hcongr : (crit.erase s.name).countP (observedTerminated (s :: rest)) =
          (crit.erase s.name).countP (observedTerminated rest) := by
        apply List.countP_congr
        intro c hc
        have hcne : c ≠ s.name := ((hnd.mem_erase_iff).mp hc).1
        rw [observedTerminated_cons]
        have hbeq : (s.name == c) = false := by
          simp [beq_eq_false_iff_ne, Ne.symm hcne]
        simp [hbeq]
      have hIH := ih (crit.erase s.name) (hnd.erase _) hstTail
      simp only [countDead]
      rw [if_pos hmem, hIH,
        List.Perm.countP_eq (observedTerminated (s :: rest)) (List.perm_cons_erase hmem),
        List.countP_cons, hcongr, hP]
      cases hasTerminated s <;> simp [Nat.add_comm]
    · simp only [countDead]
      rw [if_neg hmem, ih crit hnd hstTail]
      apply List.countP_congr
      intro c hc
      have hcne : c ≠ s.name := fun h => hmem (h ▸ hc)
      rw [observedTerminated_cons]
      have hbeq : (s.name == c) = false := by
        simp [beq_eq_false_iff_ne, Ne.symm hcne]
      simp [hbeq]

/-! ## Claim C1 -/

/-- C1 counterexample: declared critical containers `a` and `b`, only `a`
observed (terminated).  Every declared critical container present among the
observed statuses is terminated (the spec-side `All` predicate holds), yet the
evaluator under `All` returns `false`: the absent `b` blocks eligibility,
because the code compares the dead-count against the full declared count. -/
theorem c1_counterexample :
    specAllEligible [⟨"a", some ⟨some ⟨some 0⟩⟩⟩] ["a", "b"] = true ∧
    are_critical_pods_dead ⟨some ⟨some [⟨"a", some ⟨some ⟨some 0⟩⟩⟩], none⟩⟩
      ["a", "b"] KillCondition.All = false := by
  constructor <;> rfl

/-- C1 amended: under `All` (with duplicate-free declared names and observed
container names), the evaluator returns `true` iff every declared critical
container is present among the observed statuses with a terminated state — a
declared critical container absent from the observed statuses blocks
eligibility, since the dead-count is compared against the length of the whole
declared list. -/
theorem c1_all_blocks_on_absent (st : List ContainerStatus) (ip : Option String)
    (crit : List String) (hnd : crit.Nodup)
    (hst : (st.map ContainerStatus.name).Nodup) :
    are_critical_pods_dead ⟨some ⟨some st, ip⟩⟩ crit KillCondition.All = true ↔
      ∀ c ∈ crit, ∃ s ∈ st, s.name = c ∧ hasTerminated s = true := by
  show (countDead st crit.dedup == crit.length) = true ↔ _
  rw [hnd.dedup, countDead_eq st crit hnd hst, beq_iff_eq, List.countP_eq_length]
  simp only [observedTerminated, List.any_eq_true, Bool.and_eq_true, beq_iff_eq]

/-- Witness for C1 amended: single declared container `a`, observed
terminated. -/
theorem c1_witness :
    are_critical_pods_dead ⟨some ⟨some [⟨"a", some ⟨some ⟨some 7⟩⟩⟩], none⟩⟩
        ["a"] KillCondition.All = true ↔
      ∀ c ∈ ["a"], ∃ s ∈ [(⟨"a", some ⟨some ⟨some 7⟩⟩⟩ : ContainerStatus)],
        s.name = c ∧ hasTerminated s = true :=
  c1_all_blocks_on_absent [⟨"a", some ⟨some ⟨some 7⟩⟩⟩] none ["a"]
    (by simp) (by simp)

/-! ## Claim C2 -/

/-- C2 counterexample: one declared critical container `a`, observed
terminated with finish time 0; at time 500 with a 1000ms critical-deadline the
deadline has not yet elapsed (the spec-side `Any`-with-deadline predicate is
false), yet the evaluator under `Any` already returns `true`: the code has no
deadline gating. -/
theorem c2_counterexample :
    are_critical_pods_dead ⟨some ⟨some [⟨"a", some ⟨some ⟨some 0⟩⟩⟩], none⟩⟩
      ["a"] KillCondition.Any = true ∧
    specAnyPastDeadline 500 1000 [⟨"a", some ⟨some ⟨some 0⟩⟩⟩] ["a"] = false := by
  constructor <;> rfl

/-- C2 amended: under `Any` (with duplicate-free observed container names),
the evaluator returns `true` iff at least one declared critical container is
observed with a terminated state — there is no deadline check: a terminated
critical container counts on the very tick it is observed, regardless of its
finish time. -/
theorem c2_any_has_no_deadline (st : List ContainerStatus) (ip : Option String)
    (crit : List String) (hst : (st.map ContainerStatus.name).Nodup) :
    are_critical_pods_dead ⟨some ⟨some st, ip⟩⟩ crit KillCondition.Any = true ↔
      ∃ c ∈ crit, ∃ s ∈ st, s.name = c ∧ hasTerminated s = true := by
  show (countDead st crit.dedup != 0) = true ↔ _
  rw [countDead_eq st crit.dedup (List.nodup_dedup crit) hst, bne_iff_ne,
    ← Nat.pos_iff_ne_zero, List.countP_pos_iff]
  simp only [List.mem_dedup, observedTerminated, List.any_eq_true, Bool.and_eq_true,
    beq_iff_eq]

/-- Witness for C2 amended: single declared container `a`, observed
terminated. -/
theorem c2_witness :
    are_critical_pods_dead ⟨some ⟨some [⟨"a", some ⟨some ⟨some 3⟩⟩⟩], none⟩⟩
        ["a"] KillCondition.Any = true ↔
      ∃ c ∈ ["a"], ∃ s ∈ [(⟨"a", some ⟨some ⟨some 3⟩⟩⟩ : ContainerStatus)],
        s.name = c ∧ hasTerminated s = true :=
  c2_any_has_no_deadline [⟨"a", some ⟨some ⟨some 3⟩⟩⟩] none ["a"] (by simp)

/-! ## Structure of resolved chains -/

/-- Is this chain entry the seed pod kind?  Only the seed of `delete_pod` is
ever a `KnownResource.Pod`; the walk appends the other three kinds. -/
def isPodRes : KnownResource → Bool
  | .Pod _ => true
  | _ => false

/-- A successful walk only ever extends the accumulator at the end, and every
appended entry is a fetched ReplicaSet, Job or Deployment — never a Pod. -/
theorem resolveChain_ok_structure (c : Cluster) :
    ∀ (fuel : Nat) (pending : List OwnerReference) (acc chain : List KnownResource),
      resolveChain c fuel pending acc = Except.ok chain →
      ∃ tail, chain = acc ++ tail ∧ tail.countP isPodRes = 0 := by
  intro fuel
  induction fuel with
  | zero =>
    intro pending acc chain h
    cases pending with
    | nil =>
      obtain rfl : acc = chain := by simpa [resolveChain] using h
      exact ⟨[], by simp⟩
    | cons o rest => simp [resolveChain] at h
  | succ fuel ih =>
    intro pending acc chain h
    cases pending with
    | nil =>
      obtain rfl : acc = chain := by simpa [resolveChain] using h
      exact ⟨[], by simp⟩
    | cons owner rest =>
      simp only [resolveChain] at h
      split_ifs at h with h1 h2 h3
      · cases hg : c.getReplicaSet owner.name with
        | error e => rw [hg] at h; simp at h
        | ok target =>
          rw [hg] at h
          obtain ⟨tail, hchain, hcount⟩ := ih _ _ _ h
          refine ⟨KnownResource.ReplicaSet target :: tail, by simp [hchain], ?_⟩
          simp [List.countP_cons, hcount, isPodRes]
      · cases hg : c.getJob owner.name with
        | error e => rw [hg] at h; simp at h
        | ok target =>
          rw [hg] at h
          obtain ⟨tail, hchain, hcount⟩ := ih _ _ _ h
          refine ⟨KnownResource.Job target :: tail, by simp [hchain], ?_⟩
          simp [List.countP_cons, hcount, isPodRes]
      · cases hg : c.getDeployment owner.name with
        | error e => rw [hg] at h; simp at h
        | ok target =>
          rw [hg] at h
          obtain ⟨tail, hchain, hcount⟩ := ih _ _ _ h
          refine ⟨KnownResource.Deployment target :: tail, by simp [hchain], ?_⟩
          simp [List.countP_cons, hcount, isPodRes]
      · obtain rfl : acc = chain := by simpa using h
        exact ⟨[], by simp⟩

theorem runDeletes_countP_le (c : Cluster) (p : KnownResource → Bool) :
    ∀ l : List KnownResource, (runDeletes c l).1.countP p ≤ l.countP p := by
  intro l
  induction l with
  | nil => simp [runDeletes]
  | cons r rest ih =>
    simp only [runDeletes]
    cases hdel : c.deleteResource r with
    | error e =>
      cases hp : p r
      · simp [List.countP_cons, hp]
      · simp [List.countP_cons, hp]
    | ok u =>
      simp only [List.countP_cons]
      omega

/-! ## Claim C4 -/

/-- C4: for every pod whose walk resolves fully (the walk returns `.ok`), the
chain is built bottom-up — the pod is its first element — and `delete_pod`
issues the deletions in the reversed order; concretely, for a pod whose
controller owner is ReplicaSet `rs-1` whose controller owner is Deployment
`dep-1`, the deletion order is Deployment `dep-1`, ReplicaSet `rs-1`, then the
pod. -/
theorem c4_deletion_order (c : Cluster)
    (hdel : ∀ r, c.deleteResource r = Except.ok ()) :
    (∀ (fuel : Nat) (podM : ObjectMeta) (chain : List KnownResource),
      resolveChain c fuel ((get_owners podM).reverse) [KnownResource.Pod podM] =
        Except.ok chain →
      delete_pod c fuel podM = (chain.reverse, Except.ok ()) ∧
      ∃ tail, chain = KnownResource.Pod podM :: tail) ∧
    (∀ (n : Nat) (podM rsM depM : ObjectMeta),
      get_owners podM = [⟨"ReplicaSet", "apps/v1", "rs-1", some true⟩] →
      c.getReplicaSet "rs-1" = Except.ok rsM →
      get_owners rsM = [⟨"Deployment", "apps/v1", "dep-1", some true⟩] →
      c.getDeployment "dep-1" = Except.ok depM →
      get_owners depM = [] →
      delete_pod c (n + 2) podM =
        ([KnownResource.Deployment depM, KnownResource.ReplicaSet rsM,
          KnownResource.Pod podM], Except.ok ())) := by
  have hpart1 : ∀ (fuel : Nat) (podM : ObjectMeta) (chain : List KnownResource),
      resolveChain c fuel ((get_owners podM).reverse) [KnownResource.Pod podM] =
        Except.ok chain →
      delete_pod c fuel podM = (chain.reverse, Except.ok ()) ∧
      ∃ tail, chain = KnownResource.Pod podM :: tail := by
    intro fuel podM chain h
    constructor
    · unfold delete_pod
      rw [h]
      exact runDeletes_all_ok c hdel chain.reverse
    · obtain ⟨tail, hchain, _⟩ := resolveChain_ok_structure c fuel _ _ _ h
      exact ⟨tail, by simpa using hchain⟩
  refine ⟨hpart1, ?_⟩
  intro n podM rsM depM h1 h2 h3 h4 h5
  have hres : resolveChain c (n + 2) ((get_owners podM).reverse)
      [KnownResource.Pod podM] =
      Except.ok [KnownResource.Pod podM, KnownResource.ReplicaSet rsM,
        KnownResource.Deployment depM] := by
    rw [h1]
    show resolveChain c (n + 1 + 1)
      [⟨"ReplicaSet", "apps/v1", "rs-1", some true⟩] [KnownResource.Pod podM] = _
    simp only [resolveChain]
    rw [if_pos trivial]
    simp only [h2, h3, List.nil_append]
    simp only [resolveChain]
    rw [if_neg (by decide), if_neg (by decide), if_pos trivial]
    simp only [h4, h5, List.nil_append, List.append_nil]
    simp [resolveChain]
  have hd := (hpart1 (n + 2) podM _ hres).1
  rw [hd]
  simp

/-- Witness for C4 at a concrete two-level cluster. -/
theorem c4_witness :
    delete_pod
        { getReplicaSet := fun m =>
            if m = "rs-1" then
              Except.ok ⟨some "rs-1", some [⟨"Deployment", "apps/v1", "dep-1", some true⟩]⟩
            else Except.error ()
          getJob := fun _ => Except.error ()
          getDeployment := fun m =>
            if m = "dep-1" then Except.ok ⟨some "dep-1", none⟩ else Except.error ()
          deleteResource := fun _ => Except.ok () }
        2 ⟨some "app-1", some [⟨"ReplicaSet", "apps/v1", "rs-1", some true⟩]⟩ =
      ([KnownResource.Deployment ⟨some "dep-1", none⟩,
        KnownResource.ReplicaSet
          ⟨some "rs-1", some [⟨"Deployment", "apps/v1", "dep-1", some true⟩]⟩,
        KnownResource.Pod
          ⟨some "app-1", some [⟨"ReplicaSet", "apps/v1", "rs-1", some true⟩]⟩],
        Except.ok ()) :=
  (c4_deletion_order _ (fun _ => rfl)).2 0
    ⟨some "app-1", some [⟨"ReplicaSet", "apps/v1", "rs-1", some true⟩]⟩
    ⟨some "rs-1", some [⟨"Deployment", "apps/v1", "dep-1", some true⟩]⟩
    ⟨some "dep-1", none⟩ rfl rfl rfl rfl rfl

/-! ## Claim C8 -/

/-- C8 counterexample: a diamond-shaped controller-owner graph — the pod is
controller-owned by Jobs `ja` and `jb`, each controller-owned by the same
Deployment `d` — produces a chain in which the shared ancestor appears twice:
the walk performs no deduplication. -/
theorem c8_counterexample :
    ((delete_pod
        { getReplicaSet := fun _ => Except.error ()
          getJob := fun m =>
            if m = "ja" then
              Except.ok ⟨some "ja", some [⟨"Deployment", "apps/v1", "d", some true⟩]⟩
            else if m = "jb" then
              Except.ok ⟨some "jb", some [⟨"Deployment", "apps/v1", "d", some true⟩]⟩
            else Except.error ()
          getDeployment := fun m =>
            if m = "d" then Except.ok ⟨some "d", none⟩ else Except.error ()
          deleteResource := fun _ => Except.ok () }
        10
        ⟨some "p", some [⟨"Job", "batch/v1", "ja", some true⟩,
          ⟨"Job", "batch/v1", "jb", some true⟩]⟩).1.count
      (KnownResource.Deployment ⟨some "d", none⟩)) = 2 := by
  rfl

/-- C8 amended: no deduplication is performed, so an ancestor reached by
several controller-reference paths appears once per path; what does hold for
every cluster, every fuel and every owner-graph shape (shared ancestors and
cycles included) is that the seed pod kind occurs at most once among the
issued deletions — the walk only ever appends fetched ReplicaSets, Jobs and
Deployments to the seed. -/
theorem c8_pod_at_most_once (c : Cluster) (fuel : Nat) (podM : ObjectMeta) :
    (delete_pod c fuel podM).1.countP isPodRes ≤ 1 := by
  unfold delete_pod
  cases h : resolveChain c fuel ((get_owners podM).reverse) [KnownResource.Pod podM] with
  | error e => simp
  | ok chain =>
    obtain ⟨tail, hchain, hcount⟩ := resolveChain_ok_structure c fuel _ _ _ h
    have hch : chain.countP isPodRes = 1 := by
      rw [hchain, List.countP_append, hcount]
      simp [List.countP_cons, isPodRes]
    have hrev : chain.reverse.countP isPodRes = 1 := by
      rw [List.countP_reverse, hch]
    have hle := runDeletes_countP_le c isPodRes chain.reverse
    simpa [hrev] using hle

end PodWatcher
